import Mathlib

/-!
Verification of the Bitunix webhook trading bot (`src/app.py`) against its
natural-language specification.

The Python source is shallowly embedded below:
* pure helpers (`generate_signature`'s body, quantity rounding, side mapping,
  JSON compaction) become Lean functions over `String`, `ℚ` and a `Json` type;
* network effects are modelled by an environment: each endpoint maps an attempt
  index to the `HttpResult` the exchange would produce for that attempt;
* every function that performs HTTP requests also returns its request trace
  (one `Endpoint` entry per signed network attempt);
* Python exceptions that escape a function are modelled by `PyResult.exn`;
  exceptions caught inside the source function are folded into the branch the
  source's `except` clause takes.

Machine integers are modelled as `ℕ` with explicit `% 2^32` where the source's
`hashlib` arithmetic overflows; numeric JSON values and quantities are exact
rationals (the float subtleties of CPython are outside the embedding and are
noted where relevant).
-/

/-! ## SHA-256 (the `hashlib.sha256(...).hexdigest()` calls of the source)

A direct executable implementation over byte lists, words as `ℕ` reduced
modulo `2 ^ 32`. -/

def w32 : ℕ := 4294967296

def add32 (a b : ℕ) : ℕ := (a + b) % w32

def rotr32 (n x : ℕ) : ℕ := ((x >>> n) ||| (x <<< (32 - n))) % w32

def not32 (x : ℕ) : ℕ := x ^^^ (w32 - 1)

def xor3 (a b c : ℕ) : ℕ := (a ^^^ b) ^^^ c

/-- The first `k` primes (trial division; the 64th prime is 311 < 400). -/
def firstPrimes (k : ℕ) : List ℕ :=
  (((List.range 400).drop 2).filter fun n =>
    ((List.range n).drop 2).all fun d => n % d != 0).take k

/-- Integer cube root by bounded binary search: the largest `x ≤ hi` with
`x ^ 3 ≤ n`, assuming `lo ^ 3 ≤ n`. -/
def cbrtGo (n : ℕ) : ℕ → ℕ → ℕ → ℕ
  | lo, _, 0 => lo
  | lo, hi, fuel + 1 =>
    let mid := (lo + hi + 1) / 2
    if mid ≤ hi ∧ mid ^ 3 ≤ n then cbrtGo n mid hi fuel else cbrtGo n lo (mid - 1) fuel

def cbrt (n : ℕ) : ℕ := cbrtGo n 0 n 128

/-- The SHA-256 round constants: the first 32 bits of the fractional parts of
the cube roots of the first 64 primes. -/
def shaK : List ℕ := (firstPrimes 64).map fun p => cbrt (p * 2 ^ 96) % 2 ^ 32

/-- The SHA-256 initial hash values: the first 32 bits of the fractional parts
of the square roots of the first 8 primes. -/
def shaH0 : List ℕ := (firstPrimes 8).map fun p => Nat.sqrt (p * 2 ^ 64) % 2 ^ 32

def smallSigma0 (x : ℕ) : ℕ := xor3 (rotr32 7 x) (rotr32 18 x) (x >>> 3)

def smallSigma1 (x : ℕ) : ℕ := xor3 (rotr32 17 x) (rotr32 19 x) (x >>> 10)

def bigSigma0 (x : ℕ) : ℕ := xor3 (rotr32 2 x) (rotr32 13 x) (rotr32 22 x)

def bigSigma1 (x : ℕ) : ℕ := xor3 (rotr32 6 x) (rotr32 11 x) (rotr32 25 x)

def chF (x y z : ℕ) : ℕ := (x &&& y) ^^^ (not32 x &&& z)

def majF (x y z : ℕ) : ℕ := ((x &&& y) ^^^ (x &&& z)) ^^^ (y &&& z)

def bytesToWords : List ℕ → List ℕ
  | a :: b :: c :: d :: rest => (((a * 256 + b) * 256 + c) * 256 + d) :: bytesToWords rest
  | _ => []

def extendStep (w : List ℕ) : List ℕ :=
  let i := w.length
  w ++ [add32 (add32 (w.getD (i - 16) 0) (smallSigma0 (w.getD (i - 15) 0)))
              (add32 (w.getD (i - 7) 0) (smallSigma1 (w.getD (i - 2) 0)))]

def schedule (w16 : List ℕ) : List ℕ :=
  (List.range 48).foldl (fun w _ => extendStep w) w16

def shaRound (st : List ℕ) (kw : ℕ × ℕ) : List ℕ :=
  match st with
  | [a, b, c, d, e, f, g, h] =>
    let t1 := (h + bigSigma1 e + chF e f g + kw.1 + kw.2) % w32
    let t2 := (bigSigma0 a + majF a b c) % w32
    [(t1 + t2) % w32, a, b, c, (d + t1) % w32, e, f, g]
  | st => st

def compress (hs : List ℕ) (chunk : List ℕ) : List ℕ :=
  let ws := schedule (bytesToWords chunk)
  let st := (shaK.zip ws).foldl shaRound hs
  (hs.zip st).map fun p => add32 p.1 p.2

def be64 (n : ℕ) : List ℕ :=
  [n >>> 56 % 256, n >>> 48 % 256, n >>> 40 % 256, n >>> 32 % 256,
   n >>> 24 % 256, n >>> 16 % 256, n >>> 8 % 256, n % 256]

def shaPad (msg : List ℕ) : List ℕ :=
  let L := msg.length
  msg ++ [128] ++ List.replicate ((119 - L % 64) % 64) 0 ++ be64 (8 * L)

def chunksGo : ℕ → List ℕ → List (List ℕ)
  | 0, _ => []
  | _, [] => []
  | fuel + 1, l => l.take 64 :: chunksGo fuel (l.drop 64)

def chunks (l : List ℕ) : List (List ℕ) := chunksGo l.length l

def sha256Words (msg : List ℕ) : List ℕ := (chunks (shaPad msg)).foldl compress shaH0

/-- UTF-8 encoding of a unicode code point, as in Python's `str.encode("utf-8")`. -/
def utf8EncodeChar (n : ℕ) : List ℕ :=
  if n < 128 then [n]
  else if n < 2048 then [192 + n / 64, 128 + n % 64]
  else if n < 65536 then [224 + n / 4096, 128 + n / 64 % 64, 128 + n % 64]
  else [240 + n / 262144, 128 + n / 4096 % 64, 128 + n / 64 % 64, 128 + n % 64]

def utf8Bytes (s : String) : List ℕ := s.data.flatMap fun c => utf8EncodeChar c.toNat

/-- Uppercase hex digit, as produced by `.hexdigest().upper()`. -/
def hexDigitU (n : ℕ) : Char := if n < 10 then Char.ofNat (48 + n) else Char.ofNat (55 + n)

def word8Hex (w : ℕ) : List Char :=
  (List.range 8).map fun i => hexDigitU (w >>> (4 * (7 - i)) % 16)

/-- `hashlib.sha256(s.encode("utf-8")).hexdigest().upper()` of the source. -/
def sha256HexUpper (s : String) : String :=
  String.mk ((sha256Words (utf8Bytes s)).flatMap word8Hex)

/-! ## JSON values and Python value helpers -/

/-- Parsed JSON values (what `r.json()` / webhook payload fields can be).
Numbers are exact rationals. -/
inductive Json where
  | null
  | bool (b : Bool)
  | num (q : ℚ)
  | str (s : String)
  | arr (elems : List Json)
  | obj (fields : List (String × Json))

/-- Python truthiness (`if x:`) of a JSON value. -/
def pyTruthy : Json → Bool
  | .null => false
  | .bool b => b
  | .num q => !(q == 0)
  | .str s => !(s == "")
  | .arr xs => !xs.isEmpty
  | .obj fs => !fs.isEmpty

/-- Python `x == 0` of a JSON value (note `False == 0` is `True` in Python). -/
def pyEqZero : Json → Bool
  | .num q => q == 0
  | .bool b => !b
  | _ => false

/-- Decimal float literal parser, the fragment of Python `float(str)` the
source can meet in numeric payloads: optional sign, digits, optional point
and fraction digits (exponents and special values are outside the model). -/
def digitsToNat (l : List Char) : ℕ := l.foldl (fun a c => a * 10 + (c.toNat - 48)) 0

def parseFloat (s : String) : Option ℚ :=
  let stripSign : List Char → Bool × List Char := fun l =>
    match l with
    | c :: rest => if c = '-' then (true, rest) else if c = '+' then (false, rest) else (false, l)
    | [] => (false, [])
  let (neg, l1) := stripSign s.data
  let ip := l1.takeWhile Char.isDigit
  let r1 := l1.dropWhile Char.isDigit
  let val : Option ℚ :=
    match r1 with
    | [] => if ip.isEmpty then none else some (digitsToNat ip)
    | c :: rest =>
      if c = '.' then
        let fp := rest.takeWhile Char.isDigit
        let r2 := rest.dropWhile Char.isDigit
        if r2.isEmpty && !(ip.isEmpty && fp.isEmpty) then
          some ((digitsToNat ip : ℚ) + (digitsToNat fp : ℚ) / 10 ^ fp.length)
        else none
      else none
  val.map fun v => if neg then -v else v

/-- Python `float(x)` on a JSON value; `none` models a raised exception. -/
def pyFloat : Json → Option ℚ
  | .num q => some q
  | .bool b => some (if b then 1 else 0)
  | .str s => parseFloat s
  | _ => none

/-- Python `x[0]` on a JSON value; indexing a string yields its first
character as a one-character string, anything else raises (`none`). -/
def pyIndex0 : Json → Option Json
  | .arr (x :: _) => some x
  | .str s =>
    match s.data with
    | c :: _ => some (.str (String.mk [c]))
    | [] => none
  | _ => none

/-! ## Rounding and fixed-point formatting

Python `round(x, p)` and `f-string` `.pf` formatting both round half to even;
the embedding does so exactly over `ℚ` (CPython's binary-float representation
step is outside the model). -/

/-- Round half to even to the nearest integer, computed on the numerator and
denominator: `f` is the floor of `q` and `r2 = 2 * (num - f * den)` compares
the fractional part against one half (`r2 < den` iff `q - f < 1/2`). -/
def rhe (q : ℚ) : ℤ :=
  let n := q.num
  let d := (q.den : ℤ)
  let f := Int.fdiv n d
  let r2 := 2 * (n - f * d)
  if r2 < d then f else if d < r2 then f + 1 else if f % 2 = 0 then f else f + 1

/-- `round(q, p)` of the source. -/
def roundTo (q : ℚ) (p : ℕ) : ℚ := (rhe (q * 10 ^ p) : ℚ) / 10 ^ p

def padLeftZeros (s : String) (k : ℕ) : String :=
  String.mk (List.replicate (k - s.length) '0') ++ s

def formatFixedNat (n : ℕ) (p : ℕ) : String :=
  if p = 0 then toString n
  else toString (n / 10 ^ p) ++ "." ++ padLeftZeros (toString (n % 10 ^ p)) p

/-- `f-string` fixed-point formatting `f"{q:.pf}"`. -/
def formatFixed (q : ℚ) (p : ℕ) : String :=
  let n := rhe (q * 10 ^ p)
  if n < 0 then "-" ++ formatFixedNat n.natAbs p else formatFixedNat n.natAbs p

/-! ## Compact JSON serialization with sorted keys

Embeds `json.dumps(body, ensure_ascii=False, separators=(",", ":"),
sort_keys=True)`. -/

/-- Ascending order on the key of a rendered pair; also used for the
query-parameter sort of `generate_signature`. -/
def keyLE (a b : String × String) : Prop := a.1 ≤ b.1

instance : DecidableRel keyLE := fun a b => inferInstanceAs (Decidable (a.1 ≤ b.1))

instance : IsTotal (String × String) keyLE := ⟨fun a b => le_total a.1 b.1⟩

instance : IsTrans (String × String) keyLE := ⟨fun _ _ _ => le_trans⟩

/-- Stable ascending sort by key (Python `sorted(..., key=lambda x: x[0])`). -/
def sortPairs (l : List (String × String)) : List (String × String) :=
  List.insertionSort keyLE l

def hexDigitL (n : ℕ) : Char := if n < 10 then Char.ofNat (48 + n) else Char.ofNat (87 + n)

/-- JSON string-character escaping as performed by `json.dumps` with
`ensure_ascii=False`. -/
def escChar (c : Char) : String :=
  if c = '"' then "\\\""
  else if c = '\\' then "\\\\"
  else if c = '\n' then "\\n"
  else if c = '\r' then "\\r"
  else if c = '\t' then "\\t"
  else if c = Char.ofNat 8 then "\\b"
  else if c = Char.ofNat 12 then "\\f"
  else if c.toNat < 32 then "\\u00" ++ String.mk [hexDigitL (c.toNat / 16), hexDigitL (c.toNat % 16)]
  else String.mk [c]

def jsonStr (s : String) : String := "\"" ++ String.join (s.data.map escChar) ++ "\""

/-- Number rendering: integers exactly as Python's `int` repr; non-integral
rationals are rendered as 17-place fixed point (an approximation of CPython's
shortest-roundtrip float repr; no claim below evaluates this branch). -/
def numRepr (q : ℚ) : String := if q.den = 1 then toString q.num else formatFixed q 17

def joinComma : List String → String
  | [] => ""
  | [x] => x
  | x :: rest => x ++ "," ++ joinComma rest

mutual

def jcompact : Json → String
  | .null => "null"
  | .bool true => "true"
  | .bool false => "false"
  | .num q => numRepr q
  | .str s => jsonStr s
  | .arr xs => "[" ++ joinComma (jcompactList xs) ++ "]"
  | .obj fs => "\x7b" ++ joinComma ((List.insertionSort keyLE (jrenderFields fs)).map Prod.snd) ++ "\x7d"

def jcompactList : List Json → List String
  | [] => []
  | x :: rest => jcompact x :: jcompactList rest

def jrenderFields : List (String × Json) → List (String × String)
  | [] => []
  | (k, v) :: rest => (k, jsonStr k ++ ":" ++ jcompact v) :: jrenderFields rest

end

/-! ## Request signer (`generate_signature`, src/app.py lines 34-86)

The source draws `nonce` (uuid4) and `timestamp` (wall clock) inside the
function; the embedding makes this nondeterminism explicit by passing them as
arguments — everything after line 46 of the source is pure in them. -/

structure Headers where
  apiKey : String
  nonce : String
  timestamp : String
  sign : String
  contentType : String

/-- `"".join(f"{k}{v}" for k, v in sorted(query_params.items(), key=lambda x: x[0]))`. -/
def sortedQueryString (query : List (String × String)) : String :=
  String.join ((sortPairs query).map fun kv => kv.1 ++ kv.2)

/-- `json.dumps(body, ensure_ascii=False, separators=(",", ":"), sort_keys=True)`
guarded by Python's `if body:` truthiness (an absent or falsy body yields `""`). -/
def compactBody (body : Option Json) : String :=
  match body with
  | none => ""
  | some j => if pyTruthy j then jcompact j else ""

def generate_signature (api_key secret_key : String) (query_params : List (String × String))
    (body : Option Json) (nonce timestamp : String) : Headers :=
  let sorted_query := sortedQueryString query_params
  let body_str := compactBody body
  let digest_input := nonce ++ timestamp ++ api_key ++ sorted_query ++ body_str
  let digest_hex := sha256HexUpper digest_input
  let sign_hex := sha256HexUpper (digest_hex ++ secret_key)
  ⟨api_key, nonce, timestamp, sign_hex, "application/json"⟩

/-! ## Resilient request helper (`send_request`, src/app.py lines 90-126) -/

/-- What one network attempt can observe.  `netError` covers both transport
failures and non-2xx statuses (`raise_for_status`); `ok none` is an HTTP 2xx
whose body is not parseable JSON (`r.json()` raises `ValueError`); `ok (some j)`
is a 2xx with parsed body `j`. -/
inductive HttpResult where
  | netError
  | ok (body : Option Json)

/-- Disposition of one loop iteration of `send_request`:
`none` means the iteration falls through to `time.sleep` and retries;
`some r` means the function returns `r` from inside the loop. -/
def attemptOutcome : HttpResult → Option (Option Json)
  | .netError => none
  | .ok none => some none
  | .ok (some (.obj fields)) =>
    if pyEqZero ((fields.lookup "code").getD .null) then some (some (.obj fields)) else none
  | .ok (some j) => some (some j)

def MAX_RETRIES : ℕ := 5

/-- The retry loop: `used` attempts already consumed, fuel remaining.
Returns the Python return value and the total number of signed attempts. -/
def sendGo (env : ℕ → HttpResult) (used : ℕ) : ℕ → Option Json × ℕ
  | 0 => (none, used)
  | n + 1 =>
    match attemptOutcome (env used) with
    | some r => (r, used + 1)
    | none => sendGo env (used + 1) n

/-- `send_request` against an environment giving each attempt's result.
Falling out of the loop returns `None`. -/
def send_request (env : ℕ → HttpResult) : Option Json × ℕ := sendGo env 0 MAX_RETRIES

/-- The headers signed by the first `k` loop iterations (line 94 of the source
runs `generate_signature` freshly on every iteration, with that iteration's
nonce and timestamp). -/
def attemptHeaders (key secret : String) (query : List (String × String)) (body : Option Json)
    (ns ts : ℕ → String) (k : ℕ) : List Headers :=
  (List.range k).map fun i => generate_signature key secret query body (ns i) (ts i)

/-! ## The four exchange endpoints and the environment -/

inductive Endpoint where
  | positions
  | closeAll
  | depth
  | placeOrder
deriving DecidableEq

/-- An exchange environment: for each endpoint, the `HttpResult` of each
attempt of the (single) `send_request` call targeting it. -/
def Env : Type := Endpoint → ℕ → HttpResult

/-! ## Position reconciliation (`get_open_positions` / `close_all_positions`,
src/app.py lines 129-144) -/

/-- Python `a or b`. -/
def pyOr (a b : Json) : Json := if pyTruthy a then a else b

/-- `float(p.get("positionAmt", 0) or p.get("qty", 0) or 0)`; `none` models the
raised exception (`p` not a dict, or an unparseable size string). -/
def posSize (p : Json) : Option ℚ :=
  match p with
  | .obj fs =>
    pyFloat (pyOr ((fs.lookup "positionAmt").getD (.num 0))
                  (pyOr ((fs.lookup "qty").getD (.num 0)) (.num 0)))
  | _ => none

def filterPosGo : List Json → Option (List Json)
  | [] => some []
  | p :: rest =>
    match posSize p, filterPosGo rest with
    | some v, some r => some (if v = 0 then r else p :: r)
    | _, _ => none

/-- The list comprehension `[p for p in resp["data"] if float(...) != 0]`:
`some l` is its value, `none` a raised exception (caught by the source's
`except`, whose fallback returns `data` unfiltered).  Iterating a non-list
raises unless the iterable is empty (empty dict / empty string). -/
def filterPositions : Json → Option (List Json)
  | .arr ps => filterPosGo ps
  | .obj [] => some []
  | .str s => if s = "" then some [] else none
  | _ => none

/-- `get_open_positions` parse of the response value. -/
def gopParse : Option Json → Json
  | some (.obj fs) =>
    match fs.lookup "data" with
    | some d =>
      (match filterPositions d with
       | some l => .arr l
       | none => d)
    | none => .arr []
  | _ => .arr []

/-- `get_open_positions(symbol)`: the returned Python value and the trace of
signed attempts. -/
def get_open_positions (env : Env) (symbol : String) : Json × List Endpoint :=
  let r := send_request (env .positions)
  (gopParse r.1, List.replicate r.2 .positions)

/-- `{"code": 1, "msg": "No open positions"}`. -/
def noPosResp : Json := .obj [("code", .num 1), ("msg", .str "No open positions")]

/-- `close_all_positions(symbol)`. -/
def close_all_positions (env : Env) (symbol : String) : Option Json × List Endpoint :=
  let g := get_open_positions env symbol
  if pyTruthy g.1 = false then (some noPosResp, g.2)
  else
    let r := send_request (env .closeAll)
    (r.1, g.2 ++ List.replicate r.2 .closeAll)

/-! ## Order builder (`place_limit_order`, src/app.py lines 147-212) -/

/-- `symbol.split(":")[-1]` applied when `":" in symbol` (the last segment;
for a symbol without `:` the value is the symbol itself, as in the source). -/
def cleanSymbol (symbol : String) : String := ((symbol.splitOn ":").reverse).headD symbol

/-- `ASSET_PRECISION.get(symbol, 3)` (src/app.py lines 27-31, 153). -/
def ASSET_PRECISION : List (String × ℕ) := [("SOLUSDT", 4), ("BTCUSDT", 5)]

def precisionOf (symbol : String) : ℕ := (ASSET_PRECISION.lookup symbol).getD 3

/-- `MIN_ORDER_QTY.get(symbol, 0.001)` (src/app.py lines 20-24, 154). -/
def MIN_ORDER_QTY : List (String × ℚ) := [("SOLUSDT", 1 / 10), ("BTCUSDT", 1 / 10000)]

def minQtyOf (symbol : String) : ℚ := (MIN_ORDER_QTY.lookup symbol).getD (1 / 1000)

/-- `max(round(float(quantity), precision), min_qty)` (src/app.py line 156). -/
def normQty (symbol : String) (quantity : ℚ) : ℚ :=
  max (roundTo quantity (precisionOf symbol)) (minQtyOf symbol)

/-- Python `str.upper()` restricted to its ASCII action (every string the
claims exercise is ASCII). -/
def pyUpper (s : String) : String := String.mk (s.data.map Char.toUpper)

/-- Side mapping (src/app.py lines 182-186). -/
def mapSide (side : String) : String :=
  let side_up := pyUpper side
  if side_up = "BUY" ∨ side_up = "SELL" then side_up
  else if side = "buy" ∨ side = "long" ∨ side = "LONG" then "BUY" else "SELL"

/-- `(float(bids[0][0]) + float(asks[0][0])) / 2` (src/app.py line 171);
`none` is an exception, caught by the `except` of lines 178-180. -/
def midOf (bids asks : Json) : Option ℚ :=
  match (pyIndex0 bids).bind pyIndex0 |>.bind pyFloat,
        (pyIndex0 asks).bind pyIndex0 |>.bind pyFloat with
  | some pb, some pa => some ((pb + pa) / 2)
  | _, _ => none

/-- The `order_body` dict of src/app.py lines 189-208. -/
def orderBody (symbol side_up qty_str price_str : String) (sl tp : Option ℚ) (gsl : Bool) :
    List (String × Json) :=
  [("symbol", .str symbol), ("side", .str side_up), ("orderType", .str "LIMIT"),
   ("price", .str price_str), ("qty", .str qty_str), ("effect", .str "GTC"),
   ("leverage", .num 50), ("tradeSide", .str "OPEN")]
  ++ (match sl with | some v => [("slPrice", .str (formatFixed v 4))] | none => [])
  ++ (match tp with | some v => [("tpPrice", .str (formatFixed v 4))] | none => [])
  ++ (if gsl then [("guaranteedStopLoss", .bool true)] else [])

/-- How `place_limit_order` proceeds after the depth fetch (lines 161-180):
return `None`, raise (the `"data"` value is not a dict so `.get` raises
`AttributeError`, uncaught), or continue with a mid price. -/
inductive BookOutcome where
  | retNone
  | raised
  | mid (m : ℚ)

def bookOutcome : Option Json → BookOutcome
  | some (.obj fs) =>
    match fs.lookup "data" with
    | some (.obj dd) =>
      let bids := (dd.lookup "bids").getD (.arr [])
      let asks := (dd.lookup "asks").getD (.arr [])
      if pyTruthy bids = false ∨ pyTruthy asks = false then .retNone
      else
        (match midOf bids asks with
         | some m => .mid m
         | none => .retNone)
    | some _ => .raised
    | none => .retNone
  | _ => .retNone

/-- Result of a Python call that may raise out of the function. -/
inductive PyResult (α : Type) where
  | ok (val : α)
  | exn

/-- Outcome of `place_limit_order`: the Python result (return value or
uncaught exception), the trace of signed network attempts, and the body
submitted to the place-order endpoint (if that point was reached). -/
structure PLO where
  result : PyResult (Option Json)
  trace : List Endpoint
  placed : Option (List (String × Json))

def place_limit_order (env : Env) (symbol side : String) (quantity : ℚ)
    (sl tp : Option ℚ) (gsl : Bool) : PLO :=
  let sym := cleanSymbol symbol
  let prec := precisionOf sym
  let qty := max (roundTo quantity prec) (minQtyOf sym)
  let qty_str := formatFixed qty prec
  let d := send_request (env .depth)
  let dtr := List.replicate d.2 Endpoint.depth
  match bookOutcome d.1 with
  | .retNone => ⟨.ok none, dtr, none⟩
  | .raised => ⟨.exn, dtr, none⟩
  | .mid m =>
    let body := orderBody sym (mapSide side) qty_str (formatFixed m 4) sl tp gsl
    let p := send_request (env .placeOrder)
    ⟨.ok p.1, dtr ++ List.replicate p.2 Endpoint.placeOrder, some body⟩

/-! ## Webhook orchestrator (`webhook`, src/app.py lines 216-250) -/

/-- `isinstance(resp, dict) and resp.get("code") == 0` (line 237). -/
def respOk : Option Json → Bool
  | some (.obj fs) => pyEqZero ((fs.lookup "code").getD .null)
  | _ => false

/-- Python truthiness of `place_limit_order`'s return value (`if resp:`). -/
def pyTruthyOpt : Option Json → Bool
  | none => false
  | some j => pyTruthy j

structure WebhookOut where
  success : Bool
  resp : Option Json
  trace : List Endpoint

/-- The webhook handler for an intent whose fields parsed out of the JSON
payload; the quantity is the parsed numeric value (`float(quantity)`). -/
def webhook (env : Env) (symbol side : String) (quantity : ℚ)
    (sl tp : Option ℚ) (gsl : Bool) : WebhookOut :=
  if symbol = "" ∨ side = "" then ⟨false, none, []⟩
  else if quantity = 0 then
    let c := close_all_positions env symbol
    ⟨respOk c.1, c.1, c.2⟩
  else
    let p := place_limit_order env symbol side quantity sl tp gsl
    match p.result with
    | .ok r => ⟨pyTruthyOpt r, r, p.trace⟩
    | .exn => ⟨false, none, p.trace⟩

/-! ## Concurrency model for the critical-section claim

Each webhook request is served by its own thread; the source contains no lock
or other synchronization, so the set of possible executions of two concurrent
handlers is the set of all interleavings of their step sequences.  A step is
one signed network attempt, tagged with the thread that performs it. -/

inductive Interleave : List (Bool × Endpoint) → List (Bool × Endpoint) →
    List (Bool × Endpoint) → Prop where
  | nil : Interleave [] [] []
  | left (x : Bool × Endpoint) (xs ys zs : List (Bool × Endpoint)) :
      Interleave xs ys zs → Interleave (x :: xs) ys (x :: zs)
  | right (y : Bool × Endpoint) (xs ys zs : List (Bool × Endpoint)) :
      Interleave xs ys zs → Interleave xs (y :: ys) (y :: zs)

def tagThread (t : Bool) (l : List Endpoint) : List (Bool × Endpoint) := l.map fun e => (t, e)

/-- Number of thread switches in a schedule. -/
def switches : List Bool → ℕ
  | [] => 0
  | [_] => 0
  | a :: b :: rest => (if a = b then 0 else 1) + switches (b :: rest)

/-- The two threads' windows do not overlap: one thread's steps all precede
the other's, i.e. at most one thread switch occurs. -/
def serializedSchedule (s : List (Bool × Endpoint)) : Prop :=
  switches (s.map Prod.fst) ≤ 1

/-! ## Concrete environments used by counterexamples and witnesses -/

/-- A code-0 response carrying an order id. -/
def okResp : Json := .obj [("code", .num 0), ("data", .obj [("orderId", .str "1")])]

/-- A depth response with one bid level `[100, 1]` and one ask level `[100.2, 1]`. -/
def bookResp : Json :=
  .obj [("code", .num 0),
        ("data", .obj [("bids", .arr [.arr [.num 100, .num 1]]),
                       ("asks", .arr [.arr [.num (501 / 5), .num 1]])])]

/-- A positions response with no open positions. -/
def noPositionsResp : Json := .obj [("code", .num 0), ("data", .arr [])]

/-- An environment in which every endpoint answers successfully on the first
attempt. -/
def envAllOk : Env := fun e _ =>
  match e with
  | .positions => .ok (some noPositionsResp)
  | .closeAll => .ok (some okResp)
  | .depth => .ok (some bookResp)
  | .placeOrder => .ok (some okResp)

/-- The exchange-level error response of spec scenario 3. -/
def err30001 : Json := .obj [("code", .num 30001), ("msg", .str "Insufficient margin")]

/-- Every attempt yields HTTP 200 with application status 30001. -/
def envErr : ℕ → HttpResult := fun _ => .ok (some err30001)

/-- First attempt: HTTP 200 whose body is not parseable JSON; afterwards the
exchange would answer with a code-0 object. -/
def envBadJson : ℕ → HttpResult := fun i => if i = 0 then .ok none else .ok (some okResp)

/-- A depth response whose book is empty on both sides
(`bids: [], asks: []`). -/
def emptyBookResp : Json :=
  .obj [("code", .num 0), ("data", .obj [("bids", .arr []), ("asks", .arr [])])]

/-- Like `envAllOk` but the order book comes back empty. -/
def envEmptyBook : Env := fun e i =>
  match e with
  | .depth => .ok (some emptyBookResp)
  | _ => envAllOk e i

/-! ## Claim theorems -/

/-- C6: for any side string, the submitted side is determined non-rejectingly:
if the uppercased string is BUY or SELL it is used as-is; otherwise the side is
BUY exactly when the original string is one of "buy", "long", "LONG", and SELL
in every other case; in particular input "Long" yields a SELL order. -/
theorem C6_side : ∀ s : String,
    ((pyUpper s = "BUY" ∨ pyUpper s = "SELL") → mapSide s = pyUpper s) ∧
    (¬(pyUpper s = "BUY" ∨ pyUpper s = "SELL") →
      ((s = "buy" ∨ s = "long" ∨ s = "LONG") → mapSide s = "BUY") ∧
      (¬(s = "buy" ∨ s = "long" ∨ s = "LONG") → mapSide s = "SELL")) ∧
    mapSide "Long" = "SELL" := by
  intro s
  refine ⟨?_, ?_, by decide⟩
  · intro h
    simp only [mapSide]
    rw [if_pos h]
  · intro h
    constructor
    · intro h2
      simp only [mapSide]
      rw [if_neg h, if_pos h2]
    · intro h2
      simp only [mapSide]
      rw [if_neg h, if_neg h2]

/-- C6 witness: evaluating the side mapping at the concrete inputs "Long"
(fallback case, SELL) and "buy" (uppercase hit, BUY). -/
theorem C6_side_witness : mapSide "Long" = "SELL" ∧ mapSide "buy" = "BUY" :=
  ⟨(C6_side "Long").2.2, by
    have h := (C6_side "buy").1 (Or.inl (by decide))
    rw [h]; decide⟩


/-- C7: the sign header equals
SHA256hex(SHA256hex(nonce ++ timestamp ++ apiKey ++ sortedQuery ++ compactBody)
++ apiSecret), where the sorted query concatenates key-value pairs ascending by
key with no delimiters (the sort below is proved to be an ascending permutation
of the query) and the compact body is the whitespace-free sorted-keys JSON
serialization; the header is a pure function of the six inputs, hence identical
inputs always yield an identical sign header. -/
theorem C7_signature : ∀ (apiKey secretKey nonce timestamp : String)
    (query : List (String × String)) (body : Option Json),
    (generate_signature apiKey secretKey query body nonce timestamp).sign =
      sha256HexUpper (sha256HexUpper
        (nonce ++ timestamp ++ apiKey ++ sortedQueryString query ++ compactBody body)
        ++ secretKey) ∧
    (generate_signature apiKey secretKey query body nonce timestamp).nonce = nonce ∧
    (generate_signature apiKey secretKey query body nonce timestamp).timestamp = timestamp ∧
    sortedQueryString query = String.join ((sortPairs query).map fun kv => kv.1 ++ kv.2) ∧
    List.Sorted keyLE (sortPairs query) ∧
    (sortPairs query).Perm query := by
  intro apiKey secretKey nonce timestamp query body
  exact ⟨rfl, rfl, rfl, rfl,
    List.sorted_insertionSort keyLE query, List.perm_insertionSort keyLE query⟩

/-- C8: the quantity passed to the exchange is
max(round(quantity, precision), minimum); consequently it is at least the
symbol's configured minimum and, multiplied by 10^precision, is an integer
(at most `precision` decimal digits); quantity 0.00003 for BTCUSDT (precision
5, minimum 0.0001) yields 0.0001. -/
theorem C8_quantity : ∀ (symbol : String) (q : ℚ),
    normQty symbol q = max (roundTo q (precisionOf symbol)) (minQtyOf symbol) ∧
    minQtyOf symbol ≤ normQty symbol q ∧
    (normQty symbol q * 10 ^ precisionOf symbol).den = 1 ∧
    normQty "BTCUSDT" (3 / 100000) = 1 / 10000 := by
  intro symbol q
  have hex : normQty "BTCUSDT" (3 / 100000) = 1 / 10000 := by
    have h1 : roundTo (3 / 100000) (precisionOf "BTCUSDT") = 3 / 100000 := by
      have hp : precisionOf "BTCUSDT" = 5 := rfl
      rw [roundTo, hp]
      have hmul : (3 / 100000 : ℚ) * 10 ^ 5 = 3 := by norm_num
      rw [hmul]
      have hr : rhe 3 = 3 := by decide
      rw [hr]; norm_num
    have hm : minQtyOf "BTCUSDT" = 1 / 10000 := rfl
    rw [normQty, h1, hm, max_eq_right (by norm_num : (3 : ℚ) / 100000 ≤ 1 / 10000)]
  refine ⟨rfl, le_max_right _ _, ?_, hex⟩
  have hpow : ((10 : ℚ) ^ precisionOf symbol) ≠ 0 := by positivity
  rcases max_choice (roundTo q (precisionOf symbol)) (minQtyOf symbol) with h | h <;>
    rw [normQty, h]
  · rw [roundTo, div_mul_cancel₀ _ hpow]
    exact Rat.den_intCast _
  · by_cases h1 : symbol = "SOLUSDT"
    · subst h1
      have hm : minQtyOf "SOLUSDT" = 1 / 10 := rfl
      have hp : precisionOf "SOLUSDT" = 4 := rfl
      rw [hm, hp]
      have hv : (1 / 10 : ℚ) * 10 ^ 4 = ((1000 : ℤ) : ℚ) := by norm_num
      rw [hv]; exact Rat.den_intCast _
    · by_cases h2 : symbol = "BTCUSDT"
      · subst h2
        have hm : minQtyOf "BTCUSDT" = 1 / 10000 := rfl
        have hp : precisionOf "BTCUSDT" = 5 := rfl
        rw [hm, hp]
        have hv : (1 / 10000 : ℚ) * 10 ^ 5 = ((10 : ℤ) : ℚ) := by norm_num
        rw [hv]; exact Rat.den_intCast _
      · have b1 : (symbol == "SOLUSDT") = false := beq_eq_false_iff_ne.mpr h1
        have b2 : (symbol == "BTCUSDT") = false := beq_eq_false_iff_ne.mpr h2
        have hm : minQtyOf symbol = 1 / 1000 := by
          simp [minQtyOf, MIN_ORDER_QTY, List.lookup, b1, b2]
        have hp : precisionOf symbol = 3 := by
          simp [precisionOf, ASSET_PRECISION, List.lookup, b1, b2]
        rw [hm, hp]
        have hv : (1 / 1000 : ℚ) * 10 ^ 3 = ((1 : ℤ) : ℚ) := by norm_num
        rw [hv]; exact Rat.den_intCast _

/-- If every attempt up to the fuel bound is retryable, the loop consumes all
its fuel and falls through to `return None`. -/
theorem sendGo_all_retry (env : ℕ → HttpResult) :
    ∀ (n used : ℕ), (∀ i, i < used + n → attemptOutcome (env i) = none) →
    sendGo env used n = (none, used + n) := by
  intro n
  induction n with
  | zero => intro used _; rfl
  | succ m ih =>
    intro used h
    have h0 : attemptOutcome (env used) = none := h used (by omega)
    have step : sendGo env used (m + 1) = sendGo env (used + 1) m := by
      simp [sendGo, h0]
    rw [step, ih (used + 1) (fun i hi => h i (by omega))]
    have harith : used + 1 + m = used + (m + 1) := by omega
    rw [harith]

/-- C2 counterexample: with an environment answering every attempt with the
exchange-level error `{code: 30001, ...}` (entirely retryable), `send_request`
makes exactly 5 attempts but then returns `None` — not the last observed
error/response as the claim states. -/
theorem C2_cex :
    send_request envErr = (none, 5) ∧ (send_request envErr).1 ≠ some err30001 := by
  refine ⟨rfl, ?_⟩
  have h1 : (send_request envErr).1 = none := rfl
  rw [h1]
  simp

/-- C2 (amended): if every attempt of a request fails with a retryable error,
`send_request` performs exactly MAX_RETRIES (5) attempts — each signed with
that attempt's freshly generated nonce and timestamp — and then returns `None`
to the caller rather than raising an exception or reporting the last observed
error/response. -/
theorem C2_retry : ∀ (env : ℕ → HttpResult),
    (∀ i, i < MAX_RETRIES → attemptOutcome (env i) = none) →
    send_request env = (none, MAX_RETRIES) ∧
    ∀ (key secret : String) (query : List (String × String)) (body : Option Json)
      (ns ts : ℕ → String),
      (attemptHeaders key secret query body ns ts MAX_RETRIES).map Headers.nonce =
        (List.range MAX_RETRIES).map ns ∧
      (attemptHeaders key secret query body ns ts MAX_RETRIES).map Headers.timestamp =
        (List.range MAX_RETRIES).map ts := by
  intro env h
  constructor
  · have hgo := sendGo_all_retry env MAX_RETRIES 0 (fun i hi => h i (by omega))
    rw [send_request, hgo, Nat.zero_add]
  · intro key secret query body ns ts
    exact ⟨rfl, rfl⟩

/-- C2 witness: the amended claim applied to the concrete always-code-30001
environment. -/
theorem C2_retry_witness :
    send_request envErr = (none, MAX_RETRIES) ∧
    ∀ (key secret : String) (query : List (String × String)) (body : Option Json)
      (ns ts : ℕ → String),
      (attemptHeaders key secret query body ns ts MAX_RETRIES).map Headers.nonce =
        (List.range MAX_RETRIES).map ns ∧
      (attemptHeaders key secret query body ns ts MAX_RETRIES).map Headers.timestamp =
        (List.range MAX_RETRIES).map ts :=
  C2_retry envErr (fun _ _ => rfl)

/-- C3 counterexample: first attempt is HTTP 200 with a body that is not
parseable JSON; the claim says this is retried, but `send_request` returns
immediately after that single attempt (with `None`), never reaching the
code-0 answer the environment would give on the second attempt. -/
theorem C3_cex :
    send_request envBadJson = (none, 1) ∧ send_request envBadJson ≠ (some okResp, 2) := by
  refine ⟨rfl, ?_⟩
  have h1 : send_request envBadJson = (none, 1) := rfl
  rw [h1]
  simp

/-- C3 (amended): an attempt is retried iff it is a network/HTTP error or a
JSON object whose application status is not 0; a JSON object with status 0 is
returned as the success result; but any 2xx response whose body is not a JSON
object — including an unparseable body (returned as `None`) and valid non-object
JSON — is returned immediately as the result of that attempt instead of being
retried. -/
theorem C3_attempt : ∀ h : HttpResult,
    (attemptOutcome h = none ↔
      h = .netError ∨ ∃ fs, h = .ok (some (.obj fs)) ∧
        pyEqZero ((fs.lookup "code").getD .null) = false) ∧
    (∀ fs, pyEqZero ((fs.lookup "code").getD .null) = true →
      attemptOutcome (.ok (some (.obj fs))) = some (some (.obj fs))) ∧
    attemptOutcome (.ok none) = some none ∧
    (∀ j, (∀ fs, j ≠ .obj fs) → attemptOutcome (.ok (some j)) = some (some j)) := by
  intro h
  refine ⟨?_, ?_, rfl, ?_⟩
  · cases h with
    | netError => simp [attemptOutcome]
    | ok b =>
      cases b with
      | none => simp [attemptOutcome]
      | some j =>
        cases j with
        | obj fs =>
          by_cases hc : pyEqZero ((fs.lookup "code").getD .null) = true
          · simp [attemptOutcome, hc]
          · have hc2 : pyEqZero ((fs.lookup "code").getD .null) = false :=
              Bool.not_eq_true _ ▸ Bool.of_not_eq_true hc
            simp [attemptOutcome, hc2]
        | null => simp [attemptOutcome]
        | bool b => simp [attemptOutcome]
        | num q => simp [attemptOutcome]
        | str s => simp [attemptOutcome]
        | arr xs => simp [attemptOutcome]
  · intro fs hc
    simp [attemptOutcome, hc]
  · intro j hj
    cases j with
    | obj fs => exact absurd rfl (hj fs)
    | null => rfl
    | bool b => rfl
    | num q => rfl
    | str s => rfl
    | arr xs => rfl

/-- C3 witness: the amended characterization applied at concrete attempts —
a code-0 object is returned as success, and an unparseable body is returned
immediately. -/
theorem C3_attempt_witness :
    attemptOutcome (.ok (some (.obj [("code", Json.num 0)]))) =
      some (some (.obj [("code", Json.num 0)])) ∧
    attemptOutcome (.ok none) = some none :=
  ⟨(C3_attempt .netError).2.1 [("code", Json.num 0)] rfl, (C3_attempt .netError).2.2.1⟩

/-- The requests `place_limit_order` signs are some depth attempts followed by
(possibly zero) place-order attempts — nothing else. -/
theorem plo_trace_shape (env : Env) (symbol side : String) (quantity : ℚ)
    (sl tp : Option ℚ) (gsl : Bool) :
    ∃ a b, (place_limit_order env symbol side quantity sl tp gsl).trace =
      List.replicate a Endpoint.depth ++ List.replicate b Endpoint.placeOrder := by
  rcases hb : bookOutcome (send_request (env Endpoint.depth)).1 with _ | _ | m
  · exact ⟨(send_request (env Endpoint.depth)).2, 0, by simp [place_limit_order, hb]⟩
  · exact ⟨(send_request (env Endpoint.depth)).2, 0, by simp [place_limit_order, hb]⟩
  · exact ⟨(send_request (env Endpoint.depth)).2, (send_request (env Endpoint.placeOrder)).2,
      by simp [place_limit_order, hb]⟩

/-- The requests `close_all_positions` signs are some positions attempts
followed by (possibly zero) close-all attempts — nothing else. -/
theorem close_trace_shape (env : Env) (symbol : String) :
    ∃ a b, (close_all_positions env symbol).2 =
      List.replicate a Endpoint.positions ++ List.replicate b Endpoint.closeAll := by
  by_cases h : pyTruthy (gopParse (send_request (env Endpoint.positions)).1) = false
  · exact ⟨(send_request (env Endpoint.positions)).2, 0, by
      simp [close_all_positions, get_open_positions, h]⟩
  · exact ⟨(send_request (env Endpoint.positions)).2, (send_request (env Endpoint.closeAll)).2, by
      simp [close_all_positions, get_open_positions, h]⟩

/-- C1 counterexample: a valid nonzero-quantity intent processed in an
environment where every endpoint would answer successfully makes exactly one
depth request and one place-order request — the open-positions endpoint is
never queried, so no reconciliation precedes the placement that does occur. -/
theorem C1_cex :
    (webhook envAllOk "BTCUSDT" "buy" 1 none none false).trace =
      [Endpoint.depth, Endpoint.placeOrder] ∧
    Endpoint.positions ∉ (webhook envAllOk "BTCUSDT" "buy" 1 none none false).trace ∧
    Endpoint.placeOrder ∈ (webhook envAllOk "BTCUSDT" "buy" 1 none none false).trace := by
  have e : (webhook envAllOk "BTCUSDT" "buy" 1 none none false).trace =
      [Endpoint.depth, Endpoint.placeOrder] := rfl
  refine ⟨e, ?_, ?_⟩ <;> rw [e] <;> simp

/-- C1 (amended): for every valid trade intent with quantity ≠ 0 the engine
performs no reconciliation at all: neither the open-positions endpoint nor the
close-all endpoint is ever requested; the order is built and submitted
directly. -/
theorem C1_noReconcile : ∀ (env : Env) (symbol side : String) (quantity : ℚ)
    (sl tp : Option ℚ) (gsl : Bool), quantity ≠ 0 →
    Endpoint.positions ∉ (webhook env symbol side quantity sl tp gsl).trace ∧
    Endpoint.closeAll ∉ (webhook env symbol side quantity sl tp gsl).trace := by
  intro env symbol side q sl tp gsl hq
  by_cases hv : symbol = "" ∨ side = ""
  · have e : (webhook env symbol side q sl tp gsl).trace = [] := by
      simp [webhook, hv]
    rw [e]; simp
  · have hw : (webhook env symbol side q sl tp gsl).trace =
        (place_limit_order env symbol side q sl tp gsl).trace := by
      rcases hr : (place_limit_order env symbol side q sl tp gsl).result with r | _ <;>
        simp [webhook, hv, hq, hr]
    obtain ⟨a, b, ht⟩ := plo_trace_shape env symbol side q sl tp gsl
    rw [hw, ht]
    constructor <;> simp [List.mem_append, List.mem_replicate]

/-- C1 witness: the amended claim at a concrete valid intent. -/
theorem C1_noReconcile_witness :
    Endpoint.positions ∉ (webhook envAllOk "BTCUSDT" "buy" 1 none none false).trace ∧
    Endpoint.closeAll ∉ (webhook envAllOk "BTCUSDT" "buy" 1 none none false).trace :=
  C1_noReconcile envAllOk "BTCUSDT" "buy" 1 none none false (by norm_num)

/-- C4: for every valid intent with quantity 0 only the close-all path runs:
the webhook's trace is exactly the close-all path's trace, the depth and
place-order endpoints are never requested, the result is success iff the close
response is a status-0 object, and a close that exhausts its attempt budget
(returning None) yields a failure result. -/
theorem C4_closeOnly : ∀ (env : Env) (symbol side : String) (sl tp : Option ℚ) (gsl : Bool),
    symbol ≠ "" → side ≠ "" →
    (webhook env symbol side 0 sl tp gsl).trace = (close_all_positions env symbol).2 ∧
    Endpoint.depth ∉ (webhook env symbol side 0 sl tp gsl).trace ∧
    Endpoint.placeOrder ∉ (webhook env symbol side 0 sl tp gsl).trace ∧
    ((webhook env symbol side 0 sl tp gsl).success = true ↔
      respOk (close_all_positions env symbol).1 = true) ∧
    ((close_all_positions env symbol).1 = none →
      (webhook env symbol side 0 sl tp gsl).success = false) := by
  intro env symbol side sl tp gsl h1 h2
  have hv : ¬(symbol = "" ∨ side = "") := by
    rintro (h | h)
    exacts [h1 h, h2 h]
  have hw : webhook env symbol side 0 sl tp gsl =
      ⟨respOk (close_all_positions env symbol).1, (close_all_positions env symbol).1,
       (close_all_positions env symbol).2⟩ := by
    simp [webhook, hv]
  obtain ⟨a, b, ht⟩ := close_trace_shape env symbol
  refine ⟨by rw [hw], ?_, ?_, by rw [hw], ?_⟩
  · rw [hw]
    show Endpoint.depth ∉ (close_all_positions env symbol).2
    rw [ht]; simp [List.mem_append, List.mem_replicate]
  · rw [hw]
    show Endpoint.placeOrder ∉ (close_all_positions env symbol).2
    rw [ht]; simp [List.mem_append, List.mem_replicate]
  · intro hn
    rw [hw]
    show respOk (close_all_positions env symbol).1 = false
    rw [hn]
    rfl

/-- C4 witness: the claim at a concrete zero-quantity intent (no open
positions, so the close-all path answers `{code: 1}` and the result is a
failure). -/
theorem C4_closeOnly_witness :
    (webhook envAllOk "BTCUSDT" "buy" 0 none none false).trace =
      (close_all_positions envAllOk "BTCUSDT").2 ∧
    Endpoint.depth ∉ (webhook envAllOk "BTCUSDT" "buy" 0 none none false).trace ∧
    Endpoint.placeOrder ∉ (webhook envAllOk "BTCUSDT" "buy" 0 none none false).trace ∧
    ((webhook envAllOk "BTCUSDT" "buy" 0 none none false).success = true ↔
      respOk (close_all_positions envAllOk "BTCUSDT").1 = true) ∧
    ((close_all_positions envAllOk "BTCUSDT").1 = none →
      (webhook envAllOk "BTCUSDT" "buy" 0 none none false).success = false) :=
  C4_closeOnly envAllOk "BTCUSDT" "buy" none none false (by decide) (by decide)

/-- C9: if the fetched order book is a well-formed response whose bid side or
ask side is empty (Python-falsy), the order builder returns None before any
place-order request is signed or submitted: no order body is ever built and
the place-order endpoint is absent from the trace. -/
theorem C9_emptyBook : ∀ (env : Env) (symbol side : String) (quantity : ℚ)
    (sl tp : Option ℚ) (gsl : Bool) (fs dd : List (String × Json)),
    (send_request (env Endpoint.depth)).1 = some (.obj fs) →
    fs.lookup "data" = some (.obj dd) →
    (pyTruthy ((dd.lookup "bids").getD (.arr [])) = false ∨
     pyTruthy ((dd.lookup "asks").getD (.arr [])) = false) →
    (place_limit_order env symbol side quantity sl tp gsl).result = .ok none ∧
    (place_limit_order env symbol side quantity sl tp gsl).placed = none ∧
    Endpoint.placeOrder ∉ (place_limit_order env symbol side quantity sl tp gsl).trace := by
  intro env symbol side q sl tp gsl fs dd h1 h2 h3
  have hb : bookOutcome (send_request (env Endpoint.depth)).1 = .retNone := by
    rw [h1]
    simp only [bookOutcome, h2]
    rw [if_pos h3]
  refine ⟨?_, ?_, ?_⟩ <;> simp [place_limit_order, hb, List.mem_replicate]

/-- C9 witness: the claim at the concrete empty-book environment of spec
scenario 4. -/
theorem C9_emptyBook_witness :
    (place_limit_order envEmptyBook "BTCUSDT" "buy" 1 none none false).result = .ok none ∧
    (place_limit_order envEmptyBook "BTCUSDT" "buy" 1 none none false).placed = none ∧
    Endpoint.placeOrder ∉
      (place_limit_order envEmptyBook "BTCUSDT" "buy" 1 none none false).trace :=
  C9_emptyBook envEmptyBook "BTCUSDT" "buy" 1 none none false
    [("code", Json.num 0), ("data", Json.obj [("bids", Json.arr []), ("asks", Json.arr [])])]
    [("bids", Json.arr []), ("asks", Json.arr [])]
    rfl rfl (Or.inl rfl)

/-- C10: whenever the depth fetch succeeds with a book whose best bid parses
to pb and best ask parses to pa, the price field of the submitted order body
is the arithmetic mean (pb + pa) / 2 formatted to the configured 4-decimal
price precision; in particular best bid 100 and best ask 100.2 give the
computed reference price 100.1, formatted "100.1000". -/
theorem C10_midPrice : ∀ (env : Env) (symbol side : String) (quantity : ℚ)
    (sl tp : Option ℚ) (gsl : Bool) (fs dd : List (String × Json)) (pb pa : ℚ),
    (send_request (env Endpoint.depth)).1 = some (.obj fs) →
    fs.lookup "data" = some (.obj dd) →
    pyTruthy ((dd.lookup "bids").getD (.arr [])) = true →
    pyTruthy ((dd.lookup "asks").getD (.arr [])) = true →
    ((pyIndex0 ((dd.lookup "bids").getD (.arr []))).bind pyIndex0).bind pyFloat = some pb →
    ((pyIndex0 ((dd.lookup "asks").getD (.arr []))).bind pyIndex0).bind pyFloat = some pa →
    (∃ body, (place_limit_order env symbol side quantity sl tp gsl).placed = some body ∧
      body.lookup "price" = some (.str (formatFixed ((pb + pa) / 2) 4))) ∧
    midOf (.arr [.arr [.num 100, .num 1]]) (.arr [.arr [.num (501 / 5), .num 1]]) =
      some (1001 / 10) ∧
    formatFixed (1001 / 10) 4 = "100.1000" := by
  intro env symbol side q sl tp gsl fs dd pb pa h1 h2 h3 h4 h5 h6
  have hmid : midOf ((dd.lookup "bids").getD (.arr [])) ((dd.lookup "asks").getD (.arr [])) =
      some ((pb + pa) / 2) := by
    simp only [midOf]
    rw [h5, h6]
  have hb : bookOutcome (send_request (env Endpoint.depth)).1 = .mid ((pb + pa) / 2) := by
    rw [h1]
    simp only [bookOutcome, h2]
    rw [if_neg (by simp [h3, h4]), hmid]
  refine ⟨?_, ?_, ?_⟩
  · have hp : (place_limit_order env symbol side q sl tp gsl).placed =
        some (orderBody (cleanSymbol symbol) (mapSide side)
          (formatFixed (max (roundTo q (precisionOf (cleanSymbol symbol)))
            (minQtyOf (cleanSymbol symbol))) (precisionOf (cleanSymbol symbol)))
          (formatFixed ((pb + pa) / 2) 4) sl tp gsl) := by
      simp [place_limit_order, hb]
    exact ⟨_, hp, rfl⟩
  · have hc : midOf (.arr [.arr [.num 100, .num 1]]) (.arr [.arr [.num (501 / 5), .num 1]]) =
        some ((100 + 501 / 5) / 2) := rfl
    rw [hc]
    simp only [Option.some.injEq]
    norm_num
  · have hmul : (1001 / 10 : ℚ) * 10 ^ 4 = ((1001000 : ℤ) : ℚ) := by norm_num
    simp only [formatFixed, hmul]
    decide

/-- C10 witness: the claim at the concrete one-level book with best bid 100
and best ask 100.2. -/
theorem C10_midPrice_witness :
    (∃ body, (place_limit_order envAllOk "BTCUSDT" "buy" 1 none none false).placed =
        some body ∧
      body.lookup "price" = some (.str (formatFixed ((100 + 501 / 5) / 2) 4))) ∧
    midOf (.arr [.arr [.num 100, .num 1]]) (.arr [.arr [.num (501 / 5), .num 1]]) =
      some (1001 / 10) ∧
    formatFixed (1001 / 10) 4 = "100.1000" :=
  C10_midPrice envAllOk "BTCUSDT" "buy" 1 none none false
    [("code", Json.num 0),
     ("data", Json.obj [("bids", Json.arr [Json.arr [Json.num 100, Json.num 1]]),
                        ("asks", Json.arr [Json.arr [Json.num (501 / 5), Json.num 1]])])]
    [("bids", Json.arr [Json.arr [Json.num 100, Json.num 1]]),
     ("asks", Json.arr [Json.arr [Json.num (501 / 5), Json.num 1]])]
    100 (501 / 5) rfl rfl rfl rfl rfl rfl

instance (s : List (Bool × Endpoint)) : Decidable (serializedSchedule s) :=
  inferInstanceAs (Decidable (switches (s.map Prod.fst) ≤ 1))

/-- The overlapping schedule: the two handlers alternate, each one's window
containing steps of the other. -/
def overlapSched : List (Bool × Endpoint) :=
  [(true, .depth), (false, .depth), (true, .placeOrder), (false, .placeOrder)]

/-- C5 counterexample: the source acquires no per-symbol lock, so any
interleaving of two concurrent same-symbol handlers is a possible execution;
the alternating schedule `overlapSched` interleaves the two handlers' signed
request sequences with overlapping windows, refuting the claim that the
critical sections never overlap. -/
theorem C5_cex :
    ¬ ∀ sched, Interleave
        (tagThread true (webhook envAllOk "ETHUSDT" "buy" 1 none none false).trace)
        (tagThread false (webhook envAllOk "ETHUSDT" "buy" 1 none none false).trace)
        sched → serializedSchedule sched := by
  intro hall
  have htr : tagThread true (webhook envAllOk "ETHUSDT" "buy" 1 none none false).trace =
      [(true, Endpoint.depth), (true, Endpoint.placeOrder)] := rfl
  have hfr : tagThread false (webhook envAllOk "ETHUSDT" "buy" 1 none none false).trace =
      [(false, Endpoint.depth), (false, Endpoint.placeOrder)] := rfl
  have hint : Interleave [(true, Endpoint.depth), (true, Endpoint.placeOrder)]
      [(false, Endpoint.depth), (false, Endpoint.placeOrder)] overlapSched :=
    .left _ _ _ _ (.right _ _ _ _ (.left _ _ _ _ (.right _ _ _ _ .nil)))
  have hs := hall overlapSched (by rw [htr, hfr]; exact hint)
  exact absurd hs (by decide)

/-- C5 (amended): the code performs no per-symbol locking, so for two
concurrent intents for the same symbol there exists a possible execution
schedule — an interleaving of the two handlers' signed request sequences — in
which the two reconciliation/placement windows overlap. -/
theorem C5_overlap :
    ∃ sched, Interleave
      (tagThread true (webhook envAllOk "ETHUSDT" "buy" 1 none none false).trace)
      (tagThread false (webhook envAllOk "ETHUSDT" "buy" 1 none none false).trace)
      sched ∧ ¬ serializedSchedule sched := by
  refine ⟨overlapSched, ?_, by decide⟩
  have htr : tagThread true (webhook envAllOk "ETHUSDT" "buy" 1 none none false).trace =
      [(true, Endpoint.depth), (true, Endpoint.placeOrder)] := rfl
  have hfr : tagThread false (webhook envAllOk "ETHUSDT" "buy" 1 none none false).trace =
      [(false, Endpoint.depth), (false, Endpoint.placeOrder)] := rfl
  rw [htr, hfr]
  exact .left _ _ _ _ (.right _ _ _ _ (.left _ _ _ _ (.right _ _ _ _ .nil)))
